import Mathlib

/-!
Verification development for the zchecker repository (ZTF moving-target
checker).  The definitions below are shallow embeddings of the Python
source in `zchecker/zchecker.py` and of the SQLite schema and triggers in
`zchecker/schema.py`.  Times (Julian dates) and SQL numeric values are
modelled by `ℚ`, sky angles by `ℝ`, SQL text by `String`, and nullable
columns by `Option`.  Fallible operations (Python exceptions, SQLite
errors) are modelled by `Option` results or explicit error components.

The file is organised as: definitions (embeddings of the source), then
helper lemmas, then one theorem per examined claim.
-/

namespace ZChecker

/-! ### Designation sort key (`zchecker.py`, `leading_num_key`)

The Python loop is

    pfx = ''
    sfx = s
    for i in range(len(s)):
        if not s[i].isdigit():
            break
        pfx += s[i]
        sfx = s[i:]

followed by `pfx = int(pfx) if len(pfx) > 0 else 0`.  On consuming the
character at index `i`, the remaining input is exactly `s[i:]`, so the
loop is embedded as a recursion over the remaining characters in which
`sfx` is updated to the remaining list (including the consumed digit). -/

def digitsVal (l : List Char) : ℕ :=
  l.foldl (fun n c => 10 * n + (c.toNat - '0'.toNat)) 0

def lnkLoop : List Char → List Char → List Char → List Char × List Char
  | pfx, sfx, [] => (pfx, sfx)
  | pfx, sfx, c :: rest =>
      if c.isDigit then lnkLoop (pfx ++ [c]) (c :: rest) rest
      else (pfx, sfx)

def leading_num_key (s : List Char) : ℕ × List Char :=
  let r := lnkLoop [] s s
  (if r.1.isEmpty then 0 else digitsVal r.1, r.2)

/-! ### Ephemeris interpolation (`zchecker.py`, `_get_ephemerides`)

For one object the code fetches samples with `jd` strictly between
`min(jd) - 1` and `max(jd) + 1`, converts positions to radians, digitizes
the requested epochs against the sample epochs, computes the mask

    i = np.digitize(jd, eph_jd)
    mask[obj] = (i <= 0) * (i >= len(jd))
    if np.any(mask[obj]):
        i[mask[obj]] = 1
    dt = (jd - eph_jd[i - 1])
    mask[obj] += dt > 1

and then spherically interpolates

    dt /= (eph_jd[i] - eph_jd[i - 1])
    w = angular_separation(ra[i - 1], dec[i - 1], ra[i], dec[i])
    p1 = np.sin((1 - dt) * w) / np.sin(w)
    p2 = np.sin(dt * w) / np.sin(w)

`*` and `+` on numpy boolean arrays are AND and OR.  numpy integer
indexing wraps one negative step (`a[-1]` is the last element) and raises
`IndexError` past the end; an `IndexError`/`ValueError` escaping the
whole call is modelled by a `none` result. -/

structure EphSample where
  jd : ℚ
  ra : ℝ
  dec : ℝ

/-- `np.digitize(x, bins)` for monotonically increasing `bins` (default
`right=False`): the number of bin edges `≤ x`, i.e. the `i` with
`bins[i-1] <= x < bins[i]`. -/
def digitize (x : ℚ) (bins : List ℚ) : ℕ :=
  bins.countP (fun b => decide (b ≤ x))

/-- Python/numpy sequence indexing `a[i]` with negative-index wraparound;
`none` models `IndexError`. -/
def pyNth {α : Type} (l : List α) (i : ℤ) : Option α :=
  let j := if i < 0 then i + l.length else i
  if 0 ≤ j then l.get? j.toNat else none

/-- Line 298 of `zchecker.py`: `mask[obj] = (i <= 0) * (i >= len(jd))`,
per requested epoch `x`; `njd` is `len(jd)`, the number of requested
epochs. -/
def preMask (ejd : List ℚ) (njd : ℕ) (x : ℚ) : Bool :=
  decide (digitize x ejd ≤ 0) && decide (njd ≤ digitize x ejd)

/-- Line 300: `i[mask[obj]] = 1` (executed when any epoch is pre-masked;
elementwise it replaces `i` by 1 exactly where `preMask` holds). -/
def binIndex (ejd : List ℚ) (njd : ℕ) (x : ℚ) : ℕ :=
  if preMask ejd njd x then 1 else digitize x ejd

/-- C library / numpy `arctan2`. -/
noncomputable def arctan2 (y x : ℝ) : ℝ :=
  if 0 < x then Real.arctan (y / x)
  else if x < 0 then
    (if 0 ≤ y then Real.arctan (y / x) + Real.pi else Real.arctan (y / x) - Real.pi)
  else (if 0 < y then Real.pi / 2 else if y < 0 then -(Real.pi / 2) else 0)

noncomputable def hypot (x y : ℝ) : ℝ := Real.sqrt (x ^ 2 + y ^ 2)

/-- astropy's `angular_separation` (Vincenty formula), used by
`_get_ephemerides` and `fov_search`. -/
noncomputable def angular_separation (lon1 lat1 lon2 lat2 : ℝ) : ℝ :=
  arctan2
    (hypot (Real.cos lat2 * Real.sin (lon2 - lon1))
           (Real.cos lat1 * Real.sin lat2 -
            Real.sin lat1 * Real.cos lat2 * Real.cos (lon2 - lon1)))
    (Real.sin lat1 * Real.sin lat2 +
     Real.cos lat1 * Real.cos lat2 * Real.cos (lon2 - lon1))

/-- `np.radians` (the eph table stores degrees). -/
noncomputable def radiansOf (d : ℝ) : ℝ := d * (Real.pi / 180)

/-- The SQL fetch of `_get_ephemerides` for requested epochs `x :: xs`:
samples with `jd` strictly between `min(jd) - 1` and `max(jd) + 1`. -/
def ephSelect (rows : List EphSample) (x : ℚ) (xs : List ℚ) : List EphSample :=
  rows.filter (fun r =>
    decide (xs.foldl min x - 1 < r.jd) && decide (r.jd < xs.foldl max x + 1))

/-- Lines 297–313 of `zchecker.py` applied to a single requested epoch
`x`: bin index, mask bit, and spherically interpolated position. -/
noncomputable def interpOne (sel : List EphSample) (njd : ℕ) (x : ℚ) :
    Option ((ℝ × ℝ) × Bool) := do
  let ejd := sel.map (fun r => r.jd)
  let i := binIndex ejd njd x
  let r1 ← pyNth sel ((i : ℤ) - 1)
  let m := preMask ejd njd x || decide (x - r1.jd > 1)
  let r2 ← pyNth sel (i : ℤ)
  let t : ℚ := (x - r1.jd) / (r2.jd - r1.jd)
  let w := angular_separation (radiansOf r1.ra) (radiansOf r1.dec)
    (radiansOf r2.ra) (radiansOf r2.dec)
  let p1 := Real.sin ((1 - (t : ℝ)) * w) / Real.sin w
  let p2 := Real.sin ((t : ℝ) * w) / Real.sin w
  pure ((p1 * radiansOf r1.ra + p2 * radiansOf r2.ra,
         p1 * radiansOf r1.dec + p2 * radiansOf r2.dec), m)

noncomputable def interpEpochs (sel : List EphSample) (njd : ℕ) :
    List ℚ → Option (List ((ℝ × ℝ) × Bool))
  | [] => some []
  | x :: xs => do
      let r ← interpOne sel njd x
      let rest ← interpEpochs sel njd xs
      pure (r :: rest)

/-- `_get_ephemerides` restricted to a single object: the positions and
the mask it computes for the requested epochs `jds` from the object's
stored samples `rows`.  `none` models an exception escaping the call
(`min`/`zip` over an empty collection, or a numpy `IndexError`). -/
noncomputable def get_ephemerides1 (rows : List EphSample) (jds : List ℚ) :
    Option (List (ℝ × ℝ) × List Bool) :=
  match jds with
  | [] => none
  | x :: xs =>
      let sel := ephSelect rows x xs
      if sel.isEmpty then none
      else (interpEpochs sel (x :: xs).length (x :: xs)).map
        (fun l => (l.map Prod.fst, l.map Prod.snd))

/-- Modelled from the claim's words, for comparison with the code: an
epoch is invalid iff no consecutive pair of stored sample epochs brackets
it, or the bracketing pair's gap exceeds 1 day. -/
def claimMaskInvalid (ejd : List ℚ) (x : ℚ) : Bool :=
  match (ejd.zip ejd.tail).find? (fun p => decide (p.1 ≤ x) && decide (x ≤ p.2)) with
  | none => true
  | some p => decide (p.2 - p.1 > 1)

/-- Concrete ephemeris for C1: two stored samples 6 days apart, at
Julian dates 4.5 and 10.5 (all within ±1 day of the requested range). -/
noncomputable def c1SampleRows : List EphSample :=
  [⟨9/2, 1, 1⟩, ⟨21/2, 1, 1⟩]

/-- Concrete ephemeris for C5: two stored samples half a day apart whose
sky positions coincide (30°, 40°), so the bracket separation `w` is 0. -/
noncomputable def c5SampleRows : List EphSample :=
  [⟨10, 30, 40⟩, ⟨21/2, 30, 40⟩]

/-- Concrete ephemeris for C9: same degenerate bracket as C5, probed at
an epoch strictly inside the bracket. -/
noncomputable def c9SampleRows : List EphSample :=
  [⟨10, 30, 40⟩, ⟨21/2, 30, 40⟩]

/-- Concrete ephemeris for the C5 witness: two samples half a day apart
at visibly distinct positions (0°, 0°) and (90°, 0°). -/
noncomputable def c5WitnessRows : List EphSample := [⟨10, 0, 0⟩, ⟨21/2, 90, 0⟩]

/-! ### FOV search (`zchecker.py`, `fov_search`)

The search first extends the end date by one day
(`end = (Time(end) + 1 * u.day + 1 * u.s).iso[:10]`, the next calendar
day for a `YYYY-MM-DD` input), queries

    SELECT DISTINCT obsjd FROM obsnight WHERE date>=? AND date <=?

and raises `DateRangeError` when the result is empty; only then does the
per-epoch matching work run.  Calendar dates are modelled as integers
(day numbers), which compare like the `YYYY-MM-DD` strings. -/

inductive FovError
  | dateRange (msg : String)
  | other (msg : String)

structure ObsNightRow where
  date : ℤ
  obsjd : ℚ

/-- `(Time(end) + 1 * u.day + 1 * u.s).iso[:10]` for a date-only input. -/
def extendEnd (e : ℤ) : ℤ := e + 1

/-- Lines 413–420 of `zchecker.py`: the distinct exposure epochs in the
extended night-date range, or `DateRangeError` when there are none. -/
def fovSearchEpochs (tbl : List ObsNightRow) (s e : ℤ) : Except FovError (List ℚ) :=
  let e2 := extendEnd e
  let jd := ((tbl.filter (fun r => decide (s ≤ r.date) && decide (r.date ≤ e2))).map
    (fun r => r.obsjd)).dedup
  if jd.isEmpty then
    Except.error (FovError.dateRange "No observations found for UT date range.")
  else Except.ok jd

/-- `fov_search` skeleton: the date-range check runs before any matching
work; the whole remaining search is abstracted as `work` on the epoch
list, so the error behaviour is visibly independent of it. -/
def fov_search_model {α : Type} (tbl : List ObsNightRow) (s e : ℤ)
    (work : List ℚ → α) : Except FovError α :=
  match fovSearchEpochs tbl s e with
  | Except.error err => Except.error err
  | Except.ok jd => Except.ok (work jd)

/-- The 13-field record assembled by `_silicon_test` on acceptance and
written to the found table by `fov_search`. -/
structure Det where
  desg : String
  ra : ℚ
  dec : ℚ
  ra_rate : ℚ
  dec_rate : ℚ
  v : ℚ
  r : ℚ
  r_rate : ℚ
  delta : ℚ
  alpha : ℚ
  pid : ℤ
  x : ℤ
  y : ℤ

/-- One row of the obs table as used by the per-epoch loop (`pid`,
`obsjd`, and the quadrant centre `ra`/`dec` in degrees); the WCS columns
are consumed only inside `_silicon_test`, which is a parameter of
`processObj` below. -/
structure Quad where
  pid : ℤ
  obsjd : ℚ
  ra : ℝ
  dec : ℝ

/-- `np.mean`. -/
noncomputable def mean (l : List ℝ) : ℝ := l.sum / l.length

/-- `spherical_mean` from `zchecker.py`: average of the unit vectors,
converted back through `arctan2`. -/
noncomputable def spherical_mean (pts : List (ℝ × ℝ)) : ℝ × ℝ :=
  (arctan2 (mean (pts.map (fun p => Real.cos p.2 * Real.sin p.1)))
           (mean (pts.map (fun p => Real.cos p.2 * Real.cos p.1))),
   arctan2 (mean (pts.map (fun p => Real.sin p.2)))
           (hypot (mean (pts.map (fun p => Real.cos p.2 * Real.cos p.1)))
                  (mean (pts.map (fun p => Real.cos p.2 * Real.sin p.1)))))

/-- Lines 444–446: the epoch's field centre, the spherical mean of the
radian-converted quadrant centres. -/
noncomputable def fieldCenter (quads : List Quad) : ℝ × ℝ :=
  spherical_mean (quads.map (fun q => (radiansOf q.ra, radiansOf q.dec)))

/-- `np.argmin` together with the minimum value (first index wins ties);
`none` for an empty array (where numpy raises). -/
noncomputable def argminIdx : List ℝ → Option (ℕ × ℝ)
  | [] => none
  | a :: rest =>
      match argminIdx rest with
      | none => some (0, a)
      | some (j, m) => if a ≤ m then some (0, a) else some (j + 1, m)

/-- Lines 449–476 of `zchecker.py`, the per-object body of the per-epoch
loop: skip masked objects; skip when the separation from the field centre
exceeds 0.1 rad; otherwise find the closest quadrant, require its
separation ≤ 0.026 rad, and run the footprint test (`silicon`, the
embedding's stand-in for `_silicon_test`, which consumes the quadrant's
WCS columns and the external HORIZONS ephemeris). -/
noncomputable def processObj (quads : List Quad) (silicon : Quad → Option Det)
    (maskBit : Bool) (pos : ℝ × ℝ) : Option Det :=
  if maskBit then none
  else
    if angular_separation pos.1 pos.2 (fieldCenter quads).1 (fieldCenter quads).2 > 0.1
    then none
    else
      match argminIdx (quads.map (fun q =>
        angular_separation pos.1 pos.2 (radiansOf q.ra) (radiansOf q.dec))) with
      | none => none
      | some (j, dm) =>
          if dm > 0.026 then none
          else (quads.get? j).bind silicon

/-! ### Footprint test (`zchecker.py`, `_silicon_test`)

The precise ephemeris comes from HORIZONS (external; modelled by the
`HorizonsQ` record) and is projected to pixels by astropy's
`wcs.all_world2pix` on the exposure's TAN WCS (external; the projected
pixel pair `(px, py)` is taken as input).  The code accepts iff
`p[0] >= 0 and p[0] <= 3072 and p[1] >= 0 and p[1] <= 3080` and then
builds the 13-tuple with `int(...)`-truncated pixel coordinates. -/

/-- Python `int()` on a float: truncation toward zero. -/
def pytrunc (q : ℚ) : ℤ := if 0 ≤ q then ⌊q⌋ else ⌈q⌉

structure HorizonsQ where
  ra : ℚ
  dec : ℚ
  ra_rate : ℚ
  dec_rate : ℚ
  v : ℚ
  r : ℚ
  r_rate : ℚ
  delta : ℚ
  alpha : ℚ

def silicon_test (desg : String) (q : HorizonsQ) (pid : ℤ) (px py : ℚ) : Option Det :=
  if 0 ≤ px ∧ px ≤ 3072 ∧ 0 ≤ py ∧ py ≤ 3080 then
    some ⟨desg, q.ra, q.dec, q.ra_rate, q.dec_rate, q.v, q.r, q.r_rate,
          q.delta, q.alpha, pid, pytrunc px, pytrunc py⟩
  else none

/-- Concrete HORIZONS ephemeris record for the C8 witness. -/
def c8ExampleQ : HorizonsQ := ⟨1, 2, 3, 4, 5, 6, 7, 8, 9⟩

/-! ### SQL statements against the schema (`schema.py` + `zchecker.py`)

`schema.py` declares the found table with 30 columns (`foundid, desg,
obsjd, ra, dec, dra, ddec, ra3sig, dec3sig, vmag, rh, rdot, delta, phase,
selong, sangle, vangle, trueanomaly, tmtp, pid, x, y, retrieved,
archivefile, sci_sync_date, sciimg, mskimg, scipsf, diffimg, diffpsf`)
and the eph table with 8 columns (`desg, jd, ra, dec, dra, ddec, vmag,
retrieved`).  `fov_search` writes detections with
`INSERT OR REPLACE INTO found VALUES (?,?,?,?,?,?,?,?,?,?,?,?,?)`
(13 placeholders) and `update_ephemeris` refreshes with
`INSERT OR IGNORE INTO eph VALUES (?,?,?,?,?,?,?)` (7 placeholders).
SQLite rejects an `INSERT ... VALUES` whose value count differs from the
table's column count (`table found has 30 columns but 13 values were
supplied`), before considering any conflict resolution, so the arity
check is modelled ahead of the replace/ignore semantics. -/

inductive SqlVal
  | num (q : ℚ)
  | text (s : String)
  | null
deriving DecidableEq

inductive SqlErr
  | arityMismatch (supplied expected : ℕ)
deriving DecidableEq

/-- The found table's columns, transcribed from `schema.py`; `desg` is
column 1 and `pid` column 19 (0-based), the unique index `desg_pid`;
`foundid` (column 0) is the INTEGER PRIMARY KEY. -/
def foundColumns : List String :=
  ["foundid", "desg", "obsjd", "ra", "dec", "dra", "ddec", "ra3sig", "dec3sig",
   "vmag", "rh", "rdot", "delta", "phase", "selong", "sangle", "vangle",
   "trueanomaly", "tmtp", "pid", "x", "y", "retrieved", "archivefile",
   "sci_sync_date", "sciimg", "mskimg", "scipsf", "diffimg", "diffpsf"]

/-- `INSERT OR REPLACE INTO found VALUES (...)`: reject on a value-count
mismatch; otherwise delete rows conflicting on the `desg_pid` unique
index or the `foundid` primary key, then insert. -/
def insert_or_replace_found (tbl : List (List SqlVal)) (vals : List SqlVal) :
    List (List SqlVal) × Option SqlErr :=
  if vals.length ≠ foundColumns.length then
    (tbl, some (SqlErr.arityMismatch vals.length foundColumns.length))
  else
    (tbl.filter (fun row => !(decide ((row.get? 1 = vals.get? 1 ∧ row.get? 19 = vals.get? 19) ∨
        row.get? 0 = vals.get? 0))) ++ [vals], none)

/-- The 13 values `fov_search` supplies for a detection (the tuple built
by `_silicon_test`). -/
def detToRow (d : Det) : List SqlVal :=
  [SqlVal.text d.desg, SqlVal.num d.ra, SqlVal.num d.dec, SqlVal.num d.ra_rate,
   SqlVal.num d.dec_rate, SqlVal.num d.v, SqlVal.num d.r, SqlVal.num d.r_rate,
   SqlVal.num d.delta, SqlVal.num d.alpha, SqlVal.num (d.pid : ℚ),
   SqlVal.num (d.x : ℚ), SqlVal.num (d.y : ℚ)]

/-- The detection write of `fov_search` (lines 486–489). -/
def write_detection (tbl : List (List SqlVal)) (d : Det) :
    List (List SqlVal) × Option SqlErr :=
  insert_or_replace_found tbl (detToRow d)

/-- One eph-table row as relevant to `update_ephemeris`: the key columns
`desg` and `jd` plus the remaining payload. -/
structure EphRow where
  desg : String
  jd : ℚ
  rest : List SqlVal
deriving DecidableEq

def ephColumns : List String :=
  ["desg", "jd", "ra", "dec", "dra", "ddec", "vmag", "retrieved"]

/-- Number of `?` placeholders in `update_ephemeris`'s INSERT. -/
def ephInsertPlaceholders : ℕ := 7

/-- `SELECT count() FROM eph WHERE desg = ? AND jd >= ? AND jd <= ?`. -/
def eph_count_in_range (tbl : List EphRow) (obj : String) (s e : ℚ) : ℕ :=
  (tbl.filter (fun r =>
    decide (r.desg = obj) && decide (s ≤ r.jd) && decide (r.jd ≤ e))).length

/-- `DELETE FROM eph WHERE desg=? AND jd >= ? AND jd <= ?`. -/
def eph_delete_in_range (tbl : List EphRow) (obj : String) (s e : ℚ) : List EphRow :=
  tbl.filter (fun r =>
    !(decide (r.desg = obj) && decide (s ≤ r.jd) && decide (r.jd ≤ e)))

/-- `INSERT OR IGNORE` semantics under the `desg_jd` unique index. -/
def insert_ignore_eph (tbl : List EphRow) (rows : List EphRow) : List EphRow :=
  rows.foldl (fun acc r =>
    if acc.any (fun x => decide (x.desg = r.desg) && decide (x.jd = r.jd)) then acc
    else acc ++ [r]) tbl

/-- Loop body of `update_ephemeris` (lines 126–146) for one object with
`update=False`: skip when more than 2 samples already lie in the range;
otherwise delete the range and re-insert the fetched rows — which first
hits the 7-vs-8 arity check of the INSERT statement.  `fetch` stands for
the external `eph.update(obj, start, end, '6h')`. -/
def update_ephemeris_step (fetch : String → List EphRow) (s e : ℚ)
    (tbl : List EphRow) (obj : String) : List EphRow × Option SqlErr :=
  if eph_count_in_range tbl obj s e > 2 then (tbl, none)
  else
    let t1 := eph_delete_in_range tbl obj s e
    if ephInsertPlaceholders ≠ ephColumns.length then
      (t1, some (SqlErr.arityMismatch ephInsertPlaceholders ephColumns.length))
    else (insert_ignore_eph t1 (fetch obj), none)

/-- Concrete eph table for the C10 witness: object 1P has three samples
in range; object 2P only one. -/
def c10Tbl : List EphRow :=
  [⟨"1P", 1, []⟩, ⟨"1P", 2, []⟩, ⟨"1P", 3, []⟩, ⟨"2P", 1, []⟩]

/-! ### Schema tables and delete triggers (`schema.py`)

The three triggers are, verbatim from the schema:

    delete_found  BEFORE DELETE ON found:
      INSERT INTO stale_files SELECT 'cutout path',archivefile FROM found
        WHERE foundid=old.foundid AND archivefile IS NOT NULL;
      DELETE FROM projections WHERE foundid=old.foundid;
      INSERT INTO stale_files SELECT 'stack path',stackfile FROM stacks
        WHERE foundid=old.foundid AND stackfile IS NOT NULL;
      DELETE FROM stacks WHERE foundid=old.foundid;
    delete_obs    BEFORE DELETE ON obs:    DELETE FROM found WHERE pid=old.pid;
    delete_nights BEFORE DELETE ON nights: DELETE FROM obs WHERE nightid=old.nightid;

A SQL `DELETE ... WHERE p` fires the BEFORE trigger for each matching
row, then removes that row.  Only the columns consumed by the triggers
are modelled; rows are identified by their primary keys (`nightid`,
`pid`, `foundid`).  The `stacks` table is named `stackRows` here because
`stacks` is a reserved token in this Lean environment.  Each fold step
(trigger body plus row removal) executes inside the statement, i.e. the
same atomic unit as the parent deletion. -/

structure NightR where
  nightid : ℤ
  date : String
  nframes : ℤ
deriving DecidableEq

structure ObsR where
  nightid : ℤ
  pid : ℤ
deriving DecidableEq

structure FoundR where
  foundid : ℤ
  desg : String
  pid : ℤ
  archivefile : Option String
deriving DecidableEq

structure ProjR where
  foundid : ℤ
deriving DecidableEq

structure StackR where
  foundid : ℤ
  stackfile : Option String
deriving DecidableEq

structure StaleR where
  path : String
  archivefile : String
deriving DecidableEq

structure DB where
  nights : List NightR
  obs : List ObsR
  found : List FoundR
  projections : List ProjR
  stackRows : List StackR
  stale_files : List StaleR
deriving DecidableEq

/-- The first stale insert of the `delete_found` trigger. -/
def cutoutSel (found : List FoundR) (fid : ℤ) : List StaleR :=
  (found.filter (fun r => decide (r.foundid = fid) && decide (r.archivefile ≠ none))).map
    (fun r => ⟨"cutout path", r.archivefile.getD ""⟩)

/-- The second stale insert of the `delete_found` trigger. -/
def stackSel (sts : List StackR) (fid : ℤ) : List StaleR :=
  (sts.filter (fun s => decide (s.foundid = fid) && decide (s.stackfile ≠ none))).map
    (fun s => ⟨"stack path", s.stackfile.getD ""⟩)

/-- `delete_found` trigger body followed by the row's deletion. -/
def fireDeleteFound (db : DB) (f : FoundR) : DB :=
  { db with
    stale_files := db.stale_files ++ cutoutSel db.found f.foundid
                   ++ stackSel db.stackRows f.foundid,
    projections := db.projections.filter (fun p => decide (p.foundid ≠ f.foundid)),
    stackRows := db.stackRows.filter (fun s => decide (s.foundid ≠ f.foundid)),
    found := db.found.filter (fun r => decide (r.foundid ≠ f.foundid)) }

/-- `DELETE FROM found WHERE p`. -/
def delete_found_where (db : DB) (p : FoundR → Bool) : DB :=
  (db.found.filter p).foldl fireDeleteFound db

/-- `delete_obs` trigger body followed by the obs row's deletion. -/
def fireDeleteObs (db : DB) (o : ObsR) : DB :=
  let db1 := delete_found_where db (fun f => decide (f.pid = o.pid))
  { db1 with obs := db1.obs.filter (fun r => decide (r.pid ≠ o.pid)) }

/-- `DELETE FROM obs WHERE p`. -/
def delete_obs_where (db : DB) (p : ObsR → Bool) : DB :=
  (db.obs.filter p).foldl fireDeleteObs db

/-- `delete_nights` trigger body followed by the night row's deletion. -/
def fireDeleteNight (db : DB) (n : NightR) : DB :=
  let db1 := delete_obs_where db (fun o => decide (o.nightid = n.nightid))
  { db1 with nights := db1.nights.filter (fun r => decide (r.nightid ≠ n.nightid)) }

/-- `DELETE FROM nights WHERE p`. -/
def delete_nights_where (db : DB) (p : NightR → Bool) : DB :=
  (db.nights.filter p).foldl fireDeleteNight db

/-- The spec's C2 test scenario: one Night with exposures {pid 100,
pid 200}, a Detection on pid 100 with a non-null archive file, plus a
projection row and a stack row for that detection. -/
def c2ExDb : DB :=
  { nights := [⟨1, "2018-11-01", 2⟩],
    obs := [⟨1, 100⟩, ⟨1, 200⟩],
    found := [⟨7, "2P", 100, some "cutouts/2P-obs.fits"⟩],
    projections := [⟨7⟩],
    stackRows := [⟨7, some "stacks/2P-stack.fits"⟩],
    stale_files := [] }

/-! ### Helper lemmas -/

lemma dropWhile_eq_self_of_takeWhile_eq_nil {p : Char → Bool} :
    ∀ l : List Char, l.takeWhile p = [] → l.dropWhile p = l := by
  intro l h
  cases l with
  | nil => rfl
  | cons a t =>
      by_cases hp : p a
      · simp [List.takeWhile_cons, hp] at h
      · simp [List.dropWhile_cons, hp]

lemma lnkLoop_eq (rest : List Char) : ∀ pfx sfx : List Char,
    lnkLoop pfx sfx rest =
      (pfx ++ rest.takeWhile Char.isDigit,
       if (rest.takeWhile Char.isDigit).isEmpty then sfx
       else (rest.takeWhile Char.isDigit).drop ((rest.takeWhile Char.isDigit).length - 1)
            ++ rest.dropWhile Char.isDigit) := by
  induction rest with
  | nil => intro pfx sfx; simp [lnkLoop]
  | cons c r ih =>
      intro pfx sfx
      by_cases hc : c.isDigit
      · rw [lnkLoop]
        simp only [hc, if_true, ih, List.takeWhile_cons, List.dropWhile_cons]
        rcases hr : r.takeWhile Char.isDigit with _ | ⟨b, u⟩
        · simp [hr, dropWhile_eq_self_of_takeWhile_eq_nil r hr]
        · simp [hr, List.append_assoc]
      · rw [lnkLoop]
        simp [hc, List.takeWhile_cons, List.dropWhile_cons]

lemma angular_separation_self (lon lat : ℝ) :
    angular_separation lon lat lon lat = 0 := by
  unfold angular_separation
  rw [sub_self, Real.sin_zero, Real.cos_zero]
  have hnum2 : Real.cos lat * Real.sin lat - Real.sin lat * Real.cos lat * 1 = 0 := by
    ring
  have hden : Real.sin lat * Real.sin lat + Real.cos lat * Real.cos lat * 1 = 1 := by
    have h := Real.sin_sq_add_cos_sq lat
    nlinarith [h]
  rw [mul_zero, hnum2, hden]
  have hhyp : hypot 0 0 = 0 := by
    unfold hypot
    norm_num
  rw [hhyp]
  unfold arctan2
  norm_num

lemma countP_le_get_sorted (l : List ℚ) (m : ℕ) (x : ℚ)
    (hs : List.Sorted (· < ·) l) (hm : l.get? m = some x) :
    l.countP (fun b => decide (b ≤ x)) = m + 1 := by
  induction l generalizing m with
  | nil => simp at hm
  | cons a t ih =>
      rw [List.sorted_cons] at hs
      obtain ⟨ha, ht⟩ := hs
      cases m with
      | zero =>
          simp only [List.get?_cons_zero, Option.some.injEq] at hm
          subst hm
          rw [List.countP_cons]
          have hzero : t.countP (fun b => decide (b ≤ a)) = 0 := by
            rw [List.countP_eq_zero]
            intro b hb
            simp [not_le.mpr (ha b hb)]
          simp [hzero]
      | succ m =>
          simp only [List.get?_cons_succ] at hm
          have hax : a < x := ha x (List.get?_mem hm)
          rw [List.countP_cons, ih m ht hm]
          simp [le_of_lt hax]

lemma pyNth_ofNat {α : Type} (l : List α) (n : ℕ) :
    pyNth l (n : ℤ) = l.get? n := by
  unfold pyNth
  have h0 : ¬ ((n : ℤ) < 0) := by
    simp
  rw [if_neg h0, if_pos (Int.natCast_nonneg n)]
  simp

lemma radiansOf_zero : radiansOf 0 = 0 := by
  unfold radiansOf
  ring

lemma radiansOf_ninety : radiansOf 90 = Real.pi / 2 := by
  unfold radiansOf
  ring

lemma angular_separation_zero_ninety :
    angular_separation 0 0 (Real.pi / 2) 0 = Real.pi / 2 := by
  unfold angular_separation hypot arctan2
  norm_num

lemma c5WitnessSin :
    Real.sin (angular_separation (radiansOf (0:ℝ)) (radiansOf 0)
      (radiansOf 90) (radiansOf 0)) ≠ 0 := by
  rw [radiansOf_zero, radiansOf_ninety, angular_separation_zero_ninety,
    Real.sin_pi_div_two]
  norm_num

lemma arctan2_sin_cos {x : ℝ} (h1 : -(Real.pi/2) < x) (h2 : x < Real.pi/2) :
    arctan2 (Real.sin x) (Real.cos x) = x := by
  have hc : 0 < Real.cos x := Real.cos_pos_of_mem_Ioo ⟨h1, h2⟩
  unfold arctan2
  rw [if_pos hc, ← Real.tan_eq_sin_div_cos, Real.arctan_tan h1 h2]

lemma sep015 : angular_separation (3/20 : ℝ) 0 0 0 = 3/20 := by
  have hpi := Real.pi_gt_three
  have hs : (0:ℝ) ≤ Real.sin (3/20) :=
    Real.sin_nonneg_of_nonneg_of_le_pi (by norm_num) (by nlinarith)
  unfold angular_separation
  rw [zero_sub, Real.sin_neg, Real.cos_neg]
  simp only [Real.sin_zero, Real.cos_zero, one_mul, mul_zero, zero_mul, mul_one,
    zero_add, add_zero, sub_zero, zero_sub, neg_zero]
  have hh : hypot (-Real.sin (3/20)) 0 = Real.sin (3/20) := by
    unfold hypot
    rw [neg_sq]
    norm_num
    exact Real.sqrt_sq hs
  rw [hh]
  exact arctan2_sin_cos (by nlinarith) (by nlinarith)

lemma fieldCenter_one_origin : fieldCenter [⟨1, 0, 0, 0⟩] = (0, 0) := by
  unfold fieldCenter spherical_mean mean
  norm_num [radiansOf_zero, hypot, arctan2]

lemma fieldCenter_two_origin : fieldCenter [⟨2, 0, 0, 0⟩, ⟨3, 0, 0, 0⟩] = (0, 0) := by
  unfold fieldCenter spherical_mean mean
  norm_num [radiansOf_zero, hypot, arctan2]

lemma filter_filter_of_imp {α : Type} (l : List α) (c p : α → Bool)
    (h : ∀ r ∈ l, p r = true → c r = true) :
    (l.filter c).filter p = l.filter p := by
  induction l with
  | nil => rfl
  | cons a t ih =>
      have ht : ∀ r ∈ t, p r = true → c r = true :=
        fun r hr => h r (List.mem_cons_of_mem a hr)
      by_cases hc : c a = true
      · by_cases hp : p a = true
        · simp [List.filter_cons, hc, hp, ih ht]
        · simp [List.filter_cons, hc, Bool.of_not_eq_true hp, ih ht]
      · have hp : p a = false := by
          cases hpa : p a
          · rfl
          · exact absurd (h a (List.mem_cons_self a t) hpa) hc
        simp [List.filter_cons, Bool.of_not_eq_true hc, hp, ih ht]

lemma flatMap_congr_mem {α β : Type} {l : List α} {f g : α → List β}
    (h : ∀ a ∈ l, f a = g a) : l.flatMap f = l.flatMap g := by
  induction l with
  | nil => rfl
  | cons a t ih =>
      rw [List.flatMap_cons, List.flatMap_cons, h a (List.mem_cons_self a t),
        ih (fun b hb => h b (List.mem_cons_of_mem a hb))]

lemma mem_keyMap_iff {α : Type} {key : α → ℤ} {l : List α}
    (hnod : (l.map key).Nodup) (p : α → Bool) (r : α) (hr : r ∈ l) :
    (key r ∈ (l.filter p).map key) ↔ p r = true := by
  constructor
  · intro hmem
    rw [List.mem_map] at hmem
    obtain ⟨g, hg, hgid⟩ := hmem
    have hgl : g ∈ l := List.mem_of_mem_filter hg
    have hgr : g = r := List.inj_on_of_nodup_map hnod hgl hr hgid
    subst hgr
    exact (List.mem_filter.mp hg).2
  · intro hp
    exact List.mem_map.mpr ⟨r, List.mem_filter.mpr ⟨hr, hp⟩, rfl⟩

lemma mem_map_filter_or {α β : Type} (l : List α) (f : α → β) (p q : α → Bool) (x : β) :
    (x ∈ (l.filter (fun a => p a || q a)).map f) ↔
    (x ∈ (l.filter p).map f ∨ x ∈ (l.filter q).map f) := by
  simp only [List.mem_map, List.mem_filter, Bool.or_eq_true]
  constructor
  · rintro ⟨a, ⟨ha, hpq⟩, rfl⟩
    rcases hpq with hp | hq
    · exact Or.inl ⟨a, ⟨ha, hp⟩, rfl⟩
    · exact Or.inr ⟨a, ⟨ha, hq⟩, rfl⟩
  · rintro (⟨a, ⟨ha, hp⟩, rfl⟩ | ⟨a, ⟨ha, hq⟩, rfl⟩)
    · exact ⟨a, ⟨ha, Or.inl hp⟩, rfl⟩
    · exact ⟨a, ⟨ha, Or.inr hq⟩, rfl⟩

lemma delete_found_chain (doomed : List FoundR) : ∀ (db : DB),
    (∀ f ∈ doomed, f ∈ db.found) →
    (db.found.map FoundR.foundid).Nodup →
    (doomed.map FoundR.foundid).Nodup →
    (List.foldl fireDeleteFound db doomed).nights = db.nights ∧
    (List.foldl fireDeleteFound db doomed).obs = db.obs ∧
    (List.foldl fireDeleteFound db doomed).found =
      db.found.filter (fun r => decide (r.foundid ∉ doomed.map FoundR.foundid)) ∧
    (List.foldl fireDeleteFound db doomed).projections =
      db.projections.filter (fun r => decide (r.foundid ∉ doomed.map FoundR.foundid)) ∧
    (List.foldl fireDeleteFound db doomed).stackRows =
      db.stackRows.filter (fun r => decide (r.foundid ∉ doomed.map FoundR.foundid)) ∧
    (List.foldl fireDeleteFound db doomed).stale_files =
      db.stale_files ++ doomed.flatMap (fun f =>
        cutoutSel db.found f.foundid ++ stackSel db.stackRows f.foundid) := by
  induction doomed with
  | nil =>
      intro db _ _ _
      simp
  | cons f rest ih =>
      intro db hsub hnod hdnod
      rw [List.map_cons, List.nodup_cons] at hdnod
      obtain ⟨hfid, hrestnod⟩ := hdnod
      have hfdb : f ∈ db.found := hsub f (List.mem_cons_self f rest)
      have hstep : List.foldl fireDeleteFound db (f :: rest) =
          List.foldl fireDeleteFound (fireDeleteFound db f) rest := rfl
      have hsub' : ∀ g ∈ rest, g ∈ (fireDeleteFound db f).found := by
        intro g hg
        have hgdb : g ∈ db.found := hsub g (List.mem_cons_of_mem f hg)
        have hgid : g.foundid ≠ f.foundid := by
          intro hEq
          exact hfid (hEq ▸ List.mem_map_of_mem FoundR.foundid hg)
        exact List.mem_filter.mpr ⟨hgdb, by simp [hgid]⟩
      have hnod' : ((fireDeleteFound db f).found.map FoundR.foundid).Nodup :=
        List.Nodup.sublist (List.Sublist.map _ (List.filter_sublist _)) hnod
      obtain ⟨ihn, iho, ihf, ihp, ihs, ihst⟩ :=
        ih (fireDeleteFound db f) hsub' hnod' hrestnod
      rw [hstep]
      refine ⟨ihn, iho, ?_, ?_, ?_, ?_⟩
      · rw [ihf]
        show ((db.found.filter _).filter _) = _
        rw [List.filter_filter]
        apply List.filter_congr
        intro r _
        simp [List.mem_cons, not_or, Bool.and_comm]
      · rw [ihp]
        show ((db.projections.filter _).filter _) = _
        rw [List.filter_filter]
        apply List.filter_congr
        intro r _
        simp [List.mem_cons, not_or, Bool.and_comm]
      · rw [ihs]
        show ((db.stackRows.filter _).filter _) = _
        rw [List.filter_filter]
        apply List.filter_congr
        intro r _
        simp [List.mem_cons, not_or, Bool.and_comm]
      · rw [ihst]
        show (db.stale_files ++ cutoutSel db.found f.foundid
            ++ stackSel db.stackRows f.foundid) ++ _ = _
        rw [List.flatMap_cons]
        have hcut : ∀ g ∈ rest,
            cutoutSel (fireDeleteFound db f).found g.foundid ++
              stackSel (fireDeleteFound db f).stackRows g.foundid =
            cutoutSel db.found g.foundid ++ stackSel db.stackRows g.foundid := by
          intro g hg
          have hgid : g.foundid ≠ f.foundid := by
            intro hEq
            exact hfid (hEq ▸ List.mem_map_of_mem FoundR.foundid hg)
          have h1 : cutoutSel (fireDeleteFound db f).found g.foundid =
              cutoutSel db.found g.foundid := by
            unfold cutoutSel
            show ((db.found.filter _).filter _).map _ = _
            rw [filter_filter_of_imp]
            intro r _ hpr
            rw [Bool.and_eq_true, decide_eq_true_eq] at hpr
            simp [hpr.1, hgid]
          have h2 : stackSel (fireDeleteFound db f).stackRows g.foundid =
              stackSel db.stackRows g.foundid := by
            unfold stackSel
            show ((db.stackRows.filter _).filter _).map _ = _
            rw [filter_filter_of_imp]
            intro s _ hps
            rw [Bool.and_eq_true, decide_eq_true_eq] at hps
            simp [hps.1, hgid]
          rw [h1, h2]
        have hbind : rest.flatMap (fun g =>
            cutoutSel (fireDeleteFound db f).found g.foundid ++
              stackSel (fireDeleteFound db f).stackRows g.foundid) =
            rest.flatMap (fun g =>
              cutoutSel db.found g.foundid ++ stackSel db.stackRows g.foundid) :=
          flatMap_congr_mem hcut
        rw [hbind]
        simp [List.append_assoc]

lemma delete_obs_chain (doomed : List ObsR) : ∀ (db : DB),
    (db.found.map FoundR.foundid).Nodup →
    (doomed.map ObsR.pid).Nodup →
    (List.foldl fireDeleteObs db doomed).nights = db.nights ∧
    (List.foldl fireDeleteObs db doomed).obs =
      db.obs.filter (fun r => decide (r.pid ∉ doomed.map ObsR.pid)) ∧
    (List.foldl fireDeleteObs db doomed).found =
      db.found.filter (fun r => decide (r.pid ∉ doomed.map ObsR.pid)) ∧
    (List.foldl fireDeleteObs db doomed).projections =
      db.projections.filter (fun r => decide (r.foundid ∉
        (db.found.filter (fun g => decide (g.pid ∈ doomed.map ObsR.pid))).map FoundR.foundid)) ∧
    (List.foldl fireDeleteObs db doomed).stackRows =
      db.stackRows.filter (fun r => decide (r.foundid ∉
        (db.found.filter (fun g => decide (g.pid ∈ doomed.map ObsR.pid))).map FoundR.foundid)) ∧
    (List.foldl fireDeleteObs db doomed).stale_files =
      db.stale_files ++ doomed.flatMap (fun o =>
        (db.found.filter (fun g => decide (g.pid = o.pid))).flatMap (fun f =>
          cutoutSel db.found f.foundid ++ stackSel db.stackRows f.foundid)) := by
  induction doomed with
  | nil =>
      intro db _ _
      simp
  | cons o rest ih =>
      intro db hnod hdnod
      rw [List.map_cons, List.nodup_cons] at hdnod
      obtain ⟨hopid, hrestnod⟩ := hdnod
      have hstep : List.foldl fireDeleteObs db (o :: rest) =
          List.foldl fireDeleteObs (fireDeleteObs db o) rest := rfl
      have hsubF : ∀ f ∈ db.found.filter (fun f => decide (f.pid = o.pid)), f ∈ db.found :=
        fun f hf => List.mem_of_mem_filter hf
      have hdnodF :
          ((db.found.filter (fun f => decide (f.pid = o.pid))).map FoundR.foundid).Nodup :=
        List.Nodup.sublist (List.Sublist.map _ (List.filter_sublist _)) hnod
      obtain ⟨h1n, h1o, h1f, h1p, h1s, h1st⟩ :=
        delete_found_chain (db.found.filter (fun f => decide (f.pid = o.pid))) db
          hsubF hnod hdnodF
      have hb1f : (fireDeleteObs db o).found =
          db.found.filter (fun r => decide (r.pid ≠ o.pid)) := by
        show (List.foldl fireDeleteFound db _).found = _
        rw [h1f]
        apply List.filter_congr
        intro r hr
        rw [decide_eq_decide]
        have hmk := mem_keyMap_iff hnod (fun f => decide (f.pid = o.pid)) r hr
        simp [hmk]
      have hb1n : (fireDeleteObs db o).nights = db.nights := h1n
      have hb1o : (fireDeleteObs db o).obs =
          db.obs.filter (fun r => decide (r.pid ≠ o.pid)) := by
        show ((List.foldl fireDeleteFound db _).obs.filter _) = _
        rw [h1o]
      have hb1p : (fireDeleteObs db o).projections =
          db.projections.filter (fun r => decide (r.foundid ∉
            (db.found.filter (fun g => decide (g.pid = o.pid))).map FoundR.foundid)) := h1p
      have hb1s : (fireDeleteObs db o).stackRows =
          db.stackRows.filter (fun r => decide (r.foundid ∉
            (db.found.filter (fun g => decide (g.pid = o.pid))).map FoundR.foundid)) := h1s
      have hb1st : (fireDeleteObs db o).stale_files =
          db.stale_files ++
            (db.found.filter (fun g => decide (g.pid = o.pid))).flatMap (fun f =>
              cutoutSel db.found f.foundid ++ stackSel db.stackRows f.foundid) := h1st
      have hnod1 : ((fireDeleteObs db o).found.map FoundR.foundid).Nodup := by
        rw [hb1f]
        exact List.Nodup.sublist (List.Sublist.map _ (List.filter_sublist _)) hnod
      obtain ⟨ihn, iho, ihf, ihp, ihs, ihst⟩ := ih (fireDeleteObs db o) hnod1 hrestnod
      have hfRest : (db.found.filter (fun r => decide (r.pid ≠ o.pid))).filter
            (fun g => decide (g.pid ∈ rest.map ObsR.pid)) =
          db.found.filter (fun g => decide (g.pid ∈ rest.map ObsR.pid)) := by
        apply filter_filter_of_imp
        intro g _ hg
        rw [decide_eq_true_eq] at hg
        have : g.pid ≠ o.pid := fun hEq => hopid (hEq ▸ hg)
        simp [this]
      have hsplit : db.found.filter (fun g => decide (g.pid ∈ (o :: rest).map ObsR.pid)) =
          db.found.filter (fun g =>
            decide (g.pid = o.pid) || decide (g.pid ∈ rest.map ObsR.pid)) := by
        apply List.filter_congr
        intro g _
        simp [List.mem_cons]
      rw [hstep]
      refine ⟨?_, ?_, ?_, ?_, ?_, ?_⟩
      · rw [ihn, hb1n]
      · rw [iho, hb1o, List.filter_filter]
        apply List.filter_congr
        intro r _
        simp [List.map_cons, List.mem_cons, not_or, Bool.and_comm]
      · rw [ihf, hb1f, List.filter_filter]
        apply List.filter_congr
        intro r _
        simp [List.map_cons, List.mem_cons, not_or, Bool.and_comm]
      · rw [ihp, hb1f, hfRest, hb1p, List.filter_filter]
        rw [hsplit]
        apply List.filter_congr
        intro r _
        rw [← Bool.decide_and, decide_eq_decide]
        simp only [mem_map_filter_or, not_or]
        simp only [List.mem_map, List.mem_filter, decide_eq_true_eq, not_exists, not_and]
        tauto
      · rw [ihs, hb1f, hfRest, hb1s, List.filter_filter]
        rw [hsplit]
        apply List.filter_congr
        intro r _
        rw [← Bool.decide_and, decide_eq_decide]
        simp only [mem_map_filter_or, not_or]
        simp only [List.mem_map, List.mem_filter, decide_eq_true_eq, not_exists, not_and]
        tauto
      · rw [ihst, hb1st]
        have hconv : rest.flatMap (fun o2 =>
            ((fireDeleteObs db o).found.filter (fun g => decide (g.pid = o2.pid))).flatMap
              (fun f2 => cutoutSel (fireDeleteObs db o).found f2.foundid ++
                stackSel (fireDeleteObs db o).stackRows f2.foundid)) =
            rest.flatMap (fun o2 =>
              (db.found.filter (fun g => decide (g.pid = o2.pid))).flatMap
                (fun f2 => cutoutSel db.found f2.foundid ++
                  stackSel db.stackRows f2.foundid)) := by
          apply flatMap_congr_mem
          intro o2 ho2
          have ho2pid : o2.pid ≠ o.pid := by
            intro hEq
            exact hopid (hEq ▸ List.mem_map_of_mem ObsR.pid ho2)
          have hin : (fireDeleteObs db o).found.filter (fun g => decide (g.pid = o2.pid)) =
              db.found.filter (fun g => decide (g.pid = o2.pid)) := by
            rw [hb1f]
            apply filter_filter_of_imp
            intro r _ hp
            rw [decide_eq_true_eq] at hp
            simp [hp, ho2pid]
          rw [hin]
          apply flatMap_congr_mem
          intro f2 hf2
          have hf2db : f2 ∈ db.found := List.mem_of_mem_filter hf2
          have hf2pid : f2.pid = o2.pid := by
            have h := (List.mem_filter.mp hf2).2
            rwa [decide_eq_true_eq] at h
          have hcut2 : cutoutSel (fireDeleteObs db o).found f2.foundid =
              cutoutSel db.found f2.foundid := by
            rw [hb1f]
            unfold cutoutSel
            rw [filter_filter_of_imp]
            intro r hr hp
            rw [Bool.and_eq_true, decide_eq_true_eq] at hp
            have hrf : r = f2 := List.inj_on_of_nodup_map hnod hr hf2db hp.1
            subst hrf
            simp [hf2pid, ho2pid]
          have hstk2 : stackSel (fireDeleteObs db o).stackRows f2.foundid =
              stackSel db.stackRows f2.foundid := by
            rw [hb1s]
            unfold stackSel
            rw [filter_filter_of_imp]
            intro s _ hp
            rw [Bool.and_eq_true, decide_eq_true_eq] at hp
            have hfid2 : f2.foundid ∉
                (db.found.filter (fun g => decide (g.pid = o.pid))).map FoundR.foundid := by
              rw [mem_keyMap_iff hnod (fun g => decide (g.pid = o.pid)) f2 hf2db]
              simp [hf2pid, ho2pid]
            simp [hp.1, hfid2]
          rw [hcut2, hstk2]
        rw [hconv, List.flatMap_cons]
        simp [List.append_assoc]

lemma filter_key_singleton {α : Type} (key : α → ℤ) (l : List α)
    (hnod : (l.map key).Nodup) (x : α) (hx : x ∈ l) :
    l.filter (fun r => decide (key r = key x)) = [x] := by
  induction l with
  | nil => cases hx
  | cons a t ih =>
      rw [List.map_cons, List.nodup_cons] at hnod
      obtain ⟨hka, ht⟩ := hnod
      rcases List.mem_cons.mp hx with rfl | hxt
      · have hnil : t.filter (fun r => decide (key r = key x)) = [] := by
          rw [List.filter_eq_nil_iff]
          intro b hb
          simp only [decide_eq_true_eq]
          intro hEq
          exact hka (hEq ▸ List.mem_map_of_mem key hb)
        simp [List.filter_cons, hnil]
      · have hax : key a ≠ key x := by
          intro hEq
          exact hka (hEq ▸ List.mem_map_of_mem key hxt)
        simp [List.filter_cons, hax, ih ht hxt]

/-! ### Claim theorems -/

/-- C3 counterexample: the claim states that `sort_key(s)` returns the
remainder of the string *after* the maximal leading digit run, so that
`sort_key("101P") = (101, "P")`.  The code keeps the final consumed digit
in the suffix (`sfx = s[i:]`), so `leading_num_key "101P"` is
`(101, "1P")`, not `(101, "P")`. -/
theorem c3_counterexample :
    leading_num_key "101P".data = (101, ['1', 'P']) ∧
    (leading_num_key "101P".data).2 ≠ ['P'] := by
  constructor
  · decide
  · decide

/-- C3 amended: for every designation `s`, `leading_num_key s` returns the
maximal leading digit run parsed as an integer (0 when there is no leading
digit) paired with the remainder of the string *starting at the last digit
of that run* (the whole string when there is no leading digit); ordering by
these pairs still ranks "101P" after "9P" (the leading integers already
differ), while plain character-by-character string comparison ranks "101P"
before "9P". -/
theorem c3_amended :
    (∀ s : List Char,
      leading_num_key s =
        (digitsVal (s.takeWhile Char.isDigit),
         if (s.takeWhile Char.isDigit).isEmpty then s
         else (s.takeWhile Char.isDigit).drop ((s.takeWhile Char.isDigit).length - 1)
              ++ s.dropWhile Char.isDigit)) ∧
    Prod.Lex (· < ·) (· < ·) (leading_num_key "9P".data) (leading_num_key "101P".data) ∧
    "101P".data < "9P".data := by
  refine ⟨fun s => ?_, ?_, ?_⟩
  · rw [leading_num_key, lnkLoop_eq]
    rcases h : s.takeWhile Char.isDigit with _ | ⟨b, u⟩
    · simp [h, digitsVal]
    · simp [h]
  · decide
  · decide

/-- C1: the claim (and the spec, and the function's own docstring) says an
epoch is masked invalid iff it has no bracketing pair or the bracket's gap
exceeds 1 day, independently of the epoch's placement in the gap.  The
code instead computes `(i <= 0) AND (i >= len(jd))` (an AND of two
conditions, compared against the number of *requested* epochs) OR'd with
`x - eph_jd[i-1] > 1` (elapsed time since the left sample, not the
bracket's gap).  With samples at 4.5 and 10.5 (gap 6 days) and requested
epochs 5 and 10, the code masks epoch 10 but leaves epoch 5 unmasked,
while the claim requires both to be masked. -/
theorem c1_code_bug :
    (get_ephemerides1 c1SampleRows [5, 10]).map (fun r => r.2) = some [false, true] ∧
    claimMaskInvalid [9/2, 21/2] 5 = true ∧
    claimMaskInvalid [9/2, 21/2] 10 = true := by
  refine ⟨?_, by norm_num [claimMaskInvalid], by norm_num [claimMaskInvalid]⟩
  norm_num [get_ephemerides1, ephSelect, interpEpochs, interpOne, binIndex, preMask,
    digitize, pyNth, c1SampleRows, Option.bind]

/-- C5 counterexample: the claim asserts endpoint exactness for *every*
unmasked requested epoch equal to a stored sample's epoch.  With two
samples at the same sky position (30°, 40°), the bracket separation `w`
is 0, the weights divide by `sin 0 = 0`, and the epoch 10 — exactly the
first sample's epoch, and unmasked — interpolates to the junk value
(0, 0) (NaN in floating point) rather than the sample's position. -/
theorem c5_counterexample :
    get_ephemerides1 c5SampleRows [10] = some ([((0:ℝ), 0)], [false]) ∧
    ((0:ℝ), (0:ℝ)) ≠ (radiansOf 30, radiansOf 40) := by
  constructor
  · norm_num [get_ephemerides1, ephSelect, interpEpochs, interpOne, binIndex, preMask,
      digitize, pyNth, c5SampleRows, Option.bind, angular_separation_self]
  · intro h
    rw [Prod.mk.injEq] at h
    have h1 : (0:ℝ) = radiansOf 30 := h.1
    have h2 : (0:ℝ) < radiansOf 30 := by
      unfold radiansOf
      positivity
    linarith

/-- C5 amended: if a requested epoch equals the epoch of fetched sample
`m`, a next fetched sample `m+1` exists to complete the bracket, the
fetched epochs are strictly increasing, and the bracket separation `w`
has `sin w ≠ 0`, then the epoch is unmasked and the interpolated
position equals sample `m`'s (radian-converted) position exactly. -/
theorem c5_amended (rows : List EphSample) (x : ℚ) (m : ℕ) (rm rn : EphSample)
    (hsort : List.Sorted (· < ·) ((ephSelect rows x []).map (fun r => r.jd)))
    (h1 : (ephSelect rows x []).get? m = some rm)
    (h2 : (ephSelect rows x []).get? (m + 1) = some rn)
    (hx : rm.jd = x)
    (hw : Real.sin (angular_separation (radiansOf rm.ra) (radiansOf rm.dec)
            (radiansOf rn.ra) (radiansOf rn.dec)) ≠ 0) :
    get_ephemerides1 rows [x] = some ([(radiansOf rm.ra, radiansOf rm.dec)], [false]) := by
  have hdig : digitize x ((ephSelect rows x []).map (fun r => r.jd)) = m + 1 := by
    apply countP_le_get_sorted _ m x hsort
    rw [List.get?_map, h1]
    simp [hx]
  have hpre : preMask ((ephSelect rows x []).map (fun r => r.jd)) 1 x = false := by
    unfold preMask
    simp [hdig]
  have hbin : binIndex ((ephSelect rows x []).map (fun r => r.jd)) 1 x = m + 1 := by
    unfold binIndex
    rw [hpre, hdig]
    simp
  have hne : (ephSelect rows x []).isEmpty = false := by
    cases hsel : ephSelect rows x [] with
    | nil => rw [hsel] at h1; simp at h1
    | cons a t => simp
  have hcast : ((m + 1 : ℕ) : ℤ) - 1 = ((m : ℕ) : ℤ) := by
    push_cast
    ring
  have hio : interpOne (ephSelect rows x []) 1 x =
      some ((radiansOf rm.ra, radiansOf rm.dec), false) := by
    simp only [interpOne, hbin, hpre, hcast, pyNth_ofNat, h1, h2, Option.some_bind]
    simp [hx, div_self hw]
  simp [get_ephemerides1, interpEpochs, hne, hio]

/-- C5 witness: applying the amended theorem to two concrete samples half
a day apart at (0°, 0°) and (90°, 0°), requesting exactly the first
sample's epoch. -/
theorem c5_amended_witness :
    Real.sin (angular_separation (radiansOf (0:ℝ)) (radiansOf 0)
      (radiansOf 90) (radiansOf 0)) ≠ 0 ∧
    List.Sorted (· < ·) ((ephSelect c5WitnessRows 10 []).map (fun r => r.jd)) ∧
    get_ephemerides1 c5WitnessRows [10] = some ([(radiansOf 0, radiansOf 0)], [false]) :=
  ⟨c5WitnessSin,
   by norm_num [ephSelect, c5WitnessRows, List.sorted_cons],
   c5_amended c5WitnessRows 10 0 ⟨10, 0, 0⟩ ⟨21/2, 90, 0⟩
     (by norm_num [ephSelect, c5WitnessRows, List.sorted_cons])
     (by norm_num [ephSelect, c5WitnessRows])
     (by norm_num [ephSelect, c5WitnessRows])
     rfl
     c5WitnessSin⟩

/-- C9 counterexample: when the two bracketing samples share the sky
position (30°, 40°), the bracket separation is `w = 0` and the weights
`sin((1-t)w)/sin(w)` divide by zero.  At the interior epoch 10.25 the
interpolator returns (0, 0) under the division-by-zero convention (NaN in
floating point), not the shared position, refuting the claim that the
degenerate case is well-defined and returns the shared position. -/
theorem c9_counterexample :
    get_ephemerides1 c9SampleRows [41/4] = some ([((0:ℝ), 0)], [false]) ∧
    ((0:ℝ), (0:ℝ)) ≠ (radiansOf 30, radiansOf 40) := by
  constructor
  · norm_num [get_ephemerides1, ephSelect, interpEpochs, interpOne, binIndex, preMask,
      digitize, pyNth, c9SampleRows, Option.bind, angular_separation_self]
  · intro h
    rw [Prod.mk.injEq] at h
    have h1 : (0:ℝ) = radiansOf 30 := h.1
    have h2 : (0:ℝ) < radiansOf 30 := by
      unfold radiansOf
      positivity
    linarith

/-- C9 amended: for identical bracket positions the separation `w` is
exactly 0, so the weights divide by `sin 0 = 0`; under the total-division
convention (`a / 0 = 0`) the interpolator returns (0, 0) — in floating
point NaN — for any stored position, not the shared position: the
degenerate case is not specially handled. -/
theorem c9_amended (ra dec : ℝ) :
    angular_separation (radiansOf ra) (radiansOf dec) (radiansOf ra) (radiansOf dec) = 0 ∧
    get_ephemerides1 [⟨10, ra, dec⟩, ⟨21/2, ra, dec⟩] [41/4] =
      some ([((0:ℝ), 0)], [false]) := by
  refine ⟨angular_separation_self _ _, ?_⟩
  norm_num [get_ephemerides1, ephSelect, interpEpochs, interpOne, binIndex, preMask,
    digitize, pyNth, Option.bind, angular_separation_self]

/-- C6 counterexample: one exposure exists whose night date (1) is one
day past the requested range [0, 0], so no exposure's observation date
lies within the requested range; the claim then demands the
distinguishable empty-range failure, but the code extends the end of the
range by one day, finds the epoch, and proceeds without error. -/
theorem c6_counterexample :
    (¬ ∃ r ∈ ([⟨1, 100⟩] : List ObsNightRow), (0:ℤ) ≤ r.date ∧ r.date ≤ 0) ∧
    fov_search_model [(⟨1, 100⟩ : ObsNightRow)] 0 0 (fun _ => (0:ℕ)) = Except.ok 0 := by
  constructor
  · rintro ⟨r, hr, h⟩
    simp only [List.mem_singleton] at hr
    subst hr
    simp at h
  · rfl

/-- C6 amended: `fov_search` fails — with the dedicated `DateRangeError`,
and every failure of this prelude is that error — exactly when no
exposure's night date lies in the one-day-extended range
`[start, end + 1]`; the check runs before any matching work, so the
outcome is independent of the search `work` parameter. -/
theorem c6_amended {α : Type} (tbl : List ObsNightRow) (s e : ℤ) (work : List ℚ → α) :
    ((∃ m, fov_search_model tbl s e work = Except.error (FovError.dateRange m)) ↔
      ¬ ∃ r ∈ tbl, s ≤ r.date ∧ r.date ≤ e + 1) ∧
    (∀ err, fov_search_model tbl s e work = Except.error err →
      ∃ m, err = FovError.dateRange m) := by
  constructor
  · unfold fov_search_model fovSearchEpochs extendEnd
    by_cases hemp :
        (((tbl.filter (fun r => decide (s ≤ r.date) && decide (r.date ≤ e + 1))).map
          (fun r => r.obsjd)).dedup).isEmpty = true
    · simp only [hemp, if_true]
      constructor
      · intro _
        rw [List.isEmpty_iff, List.dedup_eq_nil, List.map_eq_nil_iff,
          List.filter_eq_nil_iff] at hemp
        rintro ⟨r, hr, h1, h2⟩
        exact absurd (by simp [h1, h2]) (hemp r hr)
      · intro _
        exact ⟨_, rfl⟩
    · simp only [hemp, if_false]
      constructor
      · rintro ⟨m, hm⟩
        exact absurd hm (by simp)
      · intro hno
        exfalso
        apply hemp
        rw [List.isEmpty_iff, List.dedup_eq_nil, List.map_eq_nil_iff,
          List.filter_eq_nil_iff]
        intro r hr
        simp only [Bool.and_eq_true, decide_eq_true_eq]
        rintro ⟨h1, h2⟩
        exact hno ⟨r, hr, h1, h2⟩
  · unfold fov_search_model fovSearchEpochs
    intro err herr
    by_cases hemp :
        (((tbl.filter (fun r => decide (s ≤ r.date) && decide (r.date ≤ extendEnd e))).map
          (fun r => r.obsjd)).dedup).isEmpty = true
    · simp only [hemp, if_true] at herr
      cases herr
      exact ⟨_, rfl⟩
    · simp only [hemp, if_false] at herr
      cases herr

/-- C7: an unmasked object whose separation from the epoch's field centre
exceeds 0.1 rad is rejected, and the rejection is independent of the
individual quadrants and of the footprint test: for any two quadrant
lists and any two footprint-test functions (both epochs satisfying the
coarse condition), the per-object result is `none` and identical. -/
theorem c7_coarse (q1 q2 : List Quad) (s1 s2 : Quad → Option Det) (pos : ℝ × ℝ)
    (h1 : angular_separation pos.1 pos.2 (fieldCenter q1).1 (fieldCenter q1).2 > 0.1)
    (h2 : angular_separation pos.1 pos.2 (fieldCenter q2).1 (fieldCenter q2).2 > 0.1) :
    processObj q1 s1 false pos = none ∧
    processObj q1 s1 false pos = processObj q2 s2 false pos := by
  constructor
  · simp [processObj, h1]
  · simp [processObj, h1, h2]

/-- C7 witness: the spec's own example — field centre at 0 rad (quadrants
at the origin) and an object at separation 0.15 rad; the matcher rejects,
with the same `none` result for two different quadrant lists and two
different footprint-test functions. -/
theorem c7_coarse_witness :
    angular_separation (3/20 : ℝ) 0
      (fieldCenter [⟨1, 0, 0, 0⟩]).1 (fieldCenter [⟨1, 0, 0, 0⟩]).2 > 0.1 ∧
    angular_separation (3/20 : ℝ) 0
      (fieldCenter [⟨2, 0, 0, 0⟩, ⟨3, 0, 0, 0⟩]).1
      (fieldCenter [⟨2, 0, 0, 0⟩, ⟨3, 0, 0, 0⟩]).2 > 0.1 ∧
    processObj [⟨1, 0, 0, 0⟩] (fun _ => none) false ((3/20 : ℝ), 0) = none ∧
    processObj [⟨1, 0, 0, 0⟩] (fun _ => none) false ((3/20 : ℝ), 0) =
      processObj [⟨2, 0, 0, 0⟩, ⟨3, 0, 0, 0⟩]
        (fun q => some ⟨"2P", 0, 0, 0, 0, 0, 0, 0, 0, 0, q.pid, 0, 0⟩)
        false ((3/20 : ℝ), 0) := by
  have h1 : angular_separation (3/20 : ℝ) 0
      (fieldCenter [⟨1, 0, 0, 0⟩]).1 (fieldCenter [⟨1, 0, 0, 0⟩]).2 > 0.1 := by
    rw [fieldCenter_one_origin]
    norm_num [sep015]
  have h2 : angular_separation (3/20 : ℝ) 0
      (fieldCenter [⟨2, 0, 0, 0⟩, ⟨3, 0, 0, 0⟩]).1
      (fieldCenter [⟨2, 0, 0, 0⟩, ⟨3, 0, 0, 0⟩]).2 > 0.1 := by
    rw [fieldCenter_two_origin]
    norm_num [sep015]
  exact ⟨h1, h2,
    (c7_coarse [⟨1, 0, 0, 0⟩] [⟨2, 0, 0, 0⟩, ⟨3, 0, 0, 0⟩] (fun _ => none)
      (fun q => some ⟨"2P", 0, 0, 0, 0, 0, 0, 0, 0, 0, q.pid, 0, 0⟩)
      ((3/20 : ℝ), 0) h1 h2).1,
    (c7_coarse [⟨1, 0, 0, 0⟩] [⟨2, 0, 0, 0⟩, ⟨3, 0, 0, 0⟩] (fun _ => none)
      (fun q => some ⟨"2P", 0, 0, 0, 0, 0, 0, 0, 0, 0, q.pid, 0, 0⟩)
      ((3/20 : ℝ), 0) h1 h2).2⟩

/-- C8: the footprint test accepts exactly when the projected pixel
satisfies 0 ≤ x ≤ 3072 and 0 ≤ y ≤ 3080, and on acceptance the Detection
record carries the ephemeris position, rates, magnitude, distances,
angles, the exposure's pid, and the truncated integer pixel
coordinates. -/
theorem c8_footprint (desg : String) (q : HorizonsQ) (pid : ℤ) (px py : ℚ) :
    ((silicon_test desg q pid px py).isSome ↔
      (0 ≤ px ∧ px ≤ 3072 ∧ 0 ≤ py ∧ py ≤ 3080)) ∧
    (∀ d, silicon_test desg q pid px py = some d →
      d = ⟨desg, q.ra, q.dec, q.ra_rate, q.dec_rate, q.v, q.r, q.r_rate,
           q.delta, q.alpha, pid, pytrunc px, pytrunc py⟩) := by
  constructor
  · unfold silicon_test
    split
    · simp_all
    · simp_all
  · intro d hd
    unfold silicon_test at hd
    split at hd
    · simp only [Option.some.injEq] at hd
      exact hd.symm
    · simp at hd

/-- C8 witness: a pixel position (100.5, 200) inside the detector is
accepted and yields the record with truncated coordinates (100, 200). -/
theorem c8_footprint_witness :
    ((silicon_test "2P" c8ExampleQ 5 (201/2) 200).isSome ↔
      ((0:ℚ) ≤ 201/2 ∧ (201/2 : ℚ) ≤ 3072 ∧ (0:ℚ) ≤ 200 ∧ (200:ℚ) ≤ 3080)) ∧
    (∀ d, silicon_test "2P" c8ExampleQ 5 (201/2) 200 = some d →
      d = ⟨"2P", 1, 2, 3, 4, 5, 6, 7, 8, 9, 5, 100, 200⟩) ∧
    (silicon_test "2P" c8ExampleQ 5 (201/2) 200).isSome := by
  refine ⟨(c8_footprint "2P" c8ExampleQ 5 (201/2) 200).1, ?_, ?_⟩
  · intro d hd
    have h := (c8_footprint "2P" c8ExampleQ 5 (201/2) 200).2 d hd
    rw [h]
    have htr : pytrunc (201/2) = 100 := by
      unfold pytrunc
      rw [if_pos (by norm_num)]
      norm_num
    have htr2 : pytrunc 200 = 200 := by
      unfold pytrunc
      rw [if_pos (by norm_num)]
      norm_num
    simp [c8ExampleQ, htr, htr2]
  · exact (c8_footprint "2P" c8ExampleQ 5 (201/2) 200).1.mpr (by norm_num)


/-- C4: the claim says a detection write with an existing (designation,
pid) replaces the row.  In this repository the write can never succeed:
`fov_search` supplies 13 values, but the found table declared in
`schema.py` has 30 columns, so SQLite rejects the INSERT outright (the
replace-on-conflict semantics of the `desg_pid` unique index are never
reached) and the table is left unchanged. -/
theorem c4_code_bug (tbl : List (List SqlVal)) (d : Det) :
    (detToRow d).length = 13 ∧
    foundColumns.length = 30 ∧
    write_detection tbl d = (tbl, some (SqlErr.arityMismatch 13 30)) := by
  refine ⟨rfl, rfl, ?_⟩
  unfold write_detection insert_or_replace_found
  have hlen : (detToRow d).length = 13 := rfl
  rw [if_pos (by rw [hlen]; decide)]
  rw [hlen]
  rfl

/-- C10: with `update=False`, an object with more than 2 stored samples
in [start, end] is skipped with the table untouched — that part of the
claim holds.  But an object with 2 or fewer samples is not "refreshed via
delete-then-reinsert": the range is deleted and then the reinsert fails,
because the INSERT supplies 7 values for the 8-column eph table of
`schema.py` (and the resulting OperationalError is not a ZCheckerError,
so it escapes the except clause). -/
theorem c10_code_bug (fetch : String → List EphRow) (s e : ℚ)
    (tbl : List EphRow) (obj : String) :
    (eph_count_in_range tbl obj s e > 2 →
      update_ephemeris_step fetch s e tbl obj = (tbl, none)) ∧
    (eph_count_in_range tbl obj s e ≤ 2 →
      update_ephemeris_step fetch s e tbl obj =
        (eph_delete_in_range tbl obj s e, some (SqlErr.arityMismatch 7 8))) ∧
    ephInsertPlaceholders ≠ ephColumns.length := by
  refine ⟨?_, ?_, by decide⟩
  · intro h
    unfold update_ephemeris_step
    rw [if_pos h]
  · intro h
    unfold update_ephemeris_step
    rw [if_neg (by omega)]
    rfl

/-- C10 witness: object 1P (three in-range samples) is skipped with the
table byte-for-byte unchanged; object 2P (one sample) has its range
deleted and the reinsert fails with the 7-vs-8 arity error. -/
theorem c10_code_bug_witness :
    eph_count_in_range c10Tbl "1P" 0 10 > 2 ∧
    update_ephemeris_step (fun _ => []) 0 10 c10Tbl "1P" = (c10Tbl, none) ∧
    eph_count_in_range c10Tbl "2P" 0 10 ≤ 2 ∧
    update_ephemeris_step (fun _ => []) 0 10 c10Tbl "2P" =
      (eph_delete_in_range c10Tbl "2P" 0 10, some (SqlErr.arityMismatch 7 8)) :=
  ⟨by decide,
   (c10_code_bug (fun _ => []) 0 10 c10Tbl "1P").1 (by decide),
   by decide,
   (c10_code_bug (fun _ => []) 0 10 c10Tbl "2P").2.1 (by decide)⟩

/-- C2: deleting a Night row cascades in one atomic unit: its night row
and exactly the Exposures referencing it are removed; every Detection
referencing a deleted Exposure's pid is removed; every projections/stacks
row referencing a deleted Detection's foundid is removed; for every
deleted Detection the staleness log receives a 'cutout path' row for its
non-null archivefile and a 'stack path' row for each non-null stack file
of its downstream stack rows; and prior staleness-log rows are preserved
(append-only).  Hypotheses: the deleted night exists and the three
primary keys (nightid, pid, foundid) are unique, as the schema
declares. -/
theorem c2_night_cascade (db : DB) (n : NightR)
    (hn : n ∈ db.nights)
    (hnodN : (db.nights.map NightR.nightid).Nodup)
    (hnodP : (db.obs.map ObsR.pid).Nodup)
    (hnodF : (db.found.map FoundR.foundid).Nodup) :
    (delete_nights_where db (fun r => decide (r.nightid = n.nightid))).nights =
      db.nights.filter (fun r => decide (r.nightid ≠ n.nightid)) ∧
    (delete_nights_where db (fun r => decide (r.nightid = n.nightid))).obs =
      db.obs.filter (fun o => decide (o.nightid ≠ n.nightid)) ∧
    (delete_nights_where db (fun r => decide (r.nightid = n.nightid))).found =
      db.found.filter (fun f => decide (f.pid ∉
        (db.obs.filter (fun o => decide (o.nightid = n.nightid))).map ObsR.pid)) ∧
    (delete_nights_where db (fun r => decide (r.nightid = n.nightid))).projections =
      db.projections.filter (fun r => decide (r.foundid ∉
        (db.found.filter (fun g => decide (g.pid ∈
          (db.obs.filter (fun o => decide (o.nightid = n.nightid))).map ObsR.pid))).map
            FoundR.foundid)) ∧
    (delete_nights_where db (fun r => decide (r.nightid = n.nightid))).stackRows =
      db.stackRows.filter (fun r => decide (r.foundid ∉
        (db.found.filter (fun g => decide (g.pid ∈
          (db.obs.filter (fun o => decide (o.nightid = n.nightid))).map ObsR.pid))).map
            FoundR.foundid)) ∧
    (∀ f ∈ db.found, f.pid ∈
        (db.obs.filter (fun o => decide (o.nightid = n.nightid))).map ObsR.pid →
      (∀ a, f.archivefile = some a →
        (⟨"cutout path", a⟩ : StaleR) ∈
          (delete_nights_where db (fun r => decide (r.nightid = n.nightid))).stale_files) ∧
      (∀ s ∈ db.stackRows, s.foundid = f.foundid → ∀ b, s.stackfile = some b →
        (⟨"stack path", b⟩ : StaleR) ∈
          (delete_nights_where db (fun r => decide (r.nightid = n.nightid))).stale_files)) ∧
    (∀ r ∈ db.stale_files,
      r ∈ (delete_nights_where db (fun r => decide (r.nightid = n.nightid))).stale_files) := by
  have hsingle : db.nights.filter (fun r => decide (r.nightid = n.nightid)) = [n] :=
    filter_key_singleton NightR.nightid db.nights hnodN n hn
  have hone : delete_nights_where db (fun r => decide (r.nightid = n.nightid)) =
      fireDeleteNight db n := by
    unfold delete_nights_where
    rw [hsingle]
    rfl
  have hnodPd : ((db.obs.filter (fun o => decide (o.nightid = n.nightid))).map ObsR.pid).Nodup :=
    List.Nodup.sublist (List.Sublist.map _ (List.filter_sublist _)) hnodP
  obtain ⟨h2n, h2o, h2f, h2p, h2s, h2st⟩ :=
    delete_obs_chain (db.obs.filter (fun o => decide (o.nightid = n.nightid))) db hnodF hnodPd
  have hb2n : (fireDeleteNight db n).nights =
      db.nights.filter (fun r => decide (r.nightid ≠ n.nightid)) := by
    show ((List.foldl fireDeleteObs db _).nights.filter _) = _
    rw [h2n]
  have hb2o : (fireDeleteNight db n).obs =
      db.obs.filter (fun o => decide (o.nightid ≠ n.nightid)) := by
    show (List.foldl fireDeleteObs db _).obs = _
    rw [h2o]
    apply List.filter_congr
    intro r hr
    rw [decide_eq_decide]
    have hmk := mem_keyMap_iff hnodP (fun o => decide (o.nightid = n.nightid)) r hr
    simp [hmk]
  rw [hone]
  refine ⟨hb2n, hb2o, h2f, h2p, h2s, ?_, ?_⟩
  · intro f hf hfP
    have hst : (fireDeleteNight db n).stale_files =
        db.stale_files ++
          (db.obs.filter (fun o => decide (o.nightid = n.nightid))).flatMap (fun o =>
            (db.found.filter (fun g => decide (g.pid = o.pid))).flatMap (fun f2 =>
              cutoutSel db.found f2.foundid ++ stackSel db.stackRows f2.foundid)) := h2st
    rw [List.mem_map] at hfP
    obtain ⟨o, ho, hopid⟩ := hfP
    have hff : f ∈ db.found.filter (fun g => decide (g.pid = o.pid)) :=
      List.mem_filter.mpr ⟨hf, by simp [hopid]⟩
    constructor
    · intro a ha
      rw [hst]
      apply List.mem_append_right
      rw [List.mem_flatMap]
      refine ⟨o, ho, ?_⟩
      rw [List.mem_flatMap]
      refine ⟨f, hff, ?_⟩
      apply List.mem_append_left
      unfold cutoutSel
      rw [List.mem_map]
      refine ⟨f, List.mem_filter.mpr ⟨hf, by simp [ha]⟩, by simp [ha]⟩
    · intro s hs hsf b hb
      rw [hst]
      apply List.mem_append_right
      rw [List.mem_flatMap]
      refine ⟨o, ho, ?_⟩
      rw [List.mem_flatMap]
      refine ⟨f, hff, ?_⟩
      apply List.mem_append_right
      unfold stackSel
      rw [List.mem_map]
      refine ⟨s, List.mem_filter.mpr ⟨hs, by simp [hsf, hb]⟩, by simp [hb]⟩
  · intro r hr
    have hst : (fireDeleteNight db n).stale_files =
        db.stale_files ++
          (db.obs.filter (fun o => decide (o.nightid = n.nightid))).flatMap (fun o =>
            (db.found.filter (fun g => decide (g.pid = o.pid))).flatMap (fun f2 =>
              cutoutSel db.found f2.foundid ++ stackSel db.stackRows f2.foundid)) := h2st
    rw [hst]
    exact List.mem_append_left _ hr

/-- C2 witness: the spec's scenario — deleting the Night of exposures
{100, 200} removes Detection D1 (foundid 7, pid 100), and the staleness
log contains D1's archive file path and its stack file path. -/
theorem c2_night_cascade_witness :
    ((⟨1, "2018-11-01", 2⟩ : NightR) ∈ c2ExDb.nights) ∧
    (delete_nights_where c2ExDb (fun r => decide (r.nightid = (1:ℤ)))).found =
      c2ExDb.found.filter (fun f => decide (f.pid ∉
        (c2ExDb.obs.filter (fun o => decide (o.nightid = (1:ℤ)))).map ObsR.pid)) ∧
    (∀ f ∈ c2ExDb.found, f.pid ∈
        (c2ExDb.obs.filter (fun o => decide (o.nightid = (1:ℤ)))).map ObsR.pid →
      (∀ a, f.archivefile = some a →
        (⟨"cutout path", a⟩ : StaleR) ∈
          (delete_nights_where c2ExDb (fun r => decide (r.nightid = (1:ℤ)))).stale_files) ∧
      (∀ s ∈ c2ExDb.stackRows, s.foundid = f.foundid → ∀ b, s.stackfile = some b →
        (⟨"stack path", b⟩ : StaleR) ∈
          (delete_nights_where c2ExDb (fun r => decide (r.nightid = (1:ℤ)))).stale_files)) :=
  ⟨by decide,
   (c2_night_cascade c2ExDb ⟨1, "2018-11-01", 2⟩
     (by decide) (by decide) (by decide) (by decide)).2.2.1,
   (c2_night_cascade c2ExDb ⟨1, "2018-11-01", 2⟩
     (by decide) (by decide) (by decide) (by decide)).2.2.2.2.2.1⟩

end ZChecker
